import Mathlib

/-!
Verification of the debug-info analyzer and process tracer of the
tarpaulin coverage tool, as a shallow embedding of `src/tracer.rs` and
`src/main.rs`.

Paths are modelled as an absoluteness flag plus a component list, which
matches the component-wise semantics of Rust's `Path::starts_with` and
`PathBuf::push` for the paths the program builds (a leading `.` component
is kept, as Rust does).  Machine integers (`u64` addresses, lines and
offsets) are modelled as `Nat`; every arithmetic step of the source that
could overflow is guarded in the theorems by explicit bounds.  Fallible
Rust calls (`Result`) become `Except PErr`; external effects (the
filesystem, `rustc_demangle::demangle`, the DWARF string table) are
parameters of the embedded functions.
-/

namespace Tarpaulin

/-- Error token standing for any concrete `gimli`/`nix` error value. -/
inductive PErr where
  | err
deriving DecidableEq

/-- Model of a Rust `PathBuf`: absolute flag plus the component list. -/
structure MPath where
  abs : Bool
  comps : List String
deriving DecidableEq

/-- Rust `Path::is_relative`. -/
def MPath.isRelative (p : MPath) : Bool := !p.abs

/-- Rust `PathBuf::push`: pushing an absolute path replaces the whole path. -/
def MPath.push (p q : MPath) : MPath :=
  if q.abs then q else ⟨p.abs, p.comps ++ q.comps⟩

/-- Component-list inclusion at the front, with decidable string equality. -/
def compsPre : List String → List String → Bool
  | [], _ => true
  | _ :: _, [] => false
  | a :: as, b :: bs => (decide (a = b)) && compsPre as bs

/-- Rust `Path::starts_with`: component-wise inclusion at the front, with
the root component modelled by the `abs` flag. -/
def MPath.startsWith (p q : MPath) : Bool :=
  (p.abs == q.abs) && compsPre q.comps p.comps

/-- The relative path `"target"` tested against relative row directories. -/
def relTarget : MPath := ⟨false, ["target"]⟩

/-- The relative path `"tests"` joined onto the project root. -/
def relTests : MPath := ⟨false, ["tests"]⟩

/-- Type `FunctionType` of `tracer.rs`. -/
inductive FunctionType where
  | Generated
  | Test
  | Standard
deriving DecidableEq

/-- Type `LineType` of `tracer.rs`; the payload is the extent offset. -/
inductive LineType where
  | TestMain
  | TestEntry (off : Nat)
  | FunctionEntry (off : Nat)
  | Statement
  | Condition
  | Unknown
deriving DecidableEq

/-- Structure `TracerData` of `tracer.rs`: one coverage record. -/
structure TracerData where
  path : MPath
  line : Nat
  address : Nat
  trace_type : LineType
  hits : Nat
deriving DecidableEq

/-- DWARF attribute values distinguished by `generate_func_desc`. -/
inductive AttrValue where
  | Addr (x : Nat)
  | Udata (x : Nat)
  | DebugStrRef (off : Nat)
  | OtherForm
deriving DecidableEq

/-- A subprogram debugging-information entry: the three `attr_value` reads
performed by `generate_func_desc`, each of which can fail (`Except.error`),
be absent (`Except.ok none`), or yield a value of some form. -/
structure Die where
  low : Except PErr (Option AttrValue)
  high : Except PErr (Option AttrValue)
  linkage : Except PErr (Option AttrValue)

/-- Whether an attribute value is an address (`AttributeValue::Addr`). -/
def isAddrA : AttrValue → Bool
  | AttrValue.Addr _ => true
  | _ => false

/-- Whether an attribute value is unsigned data (`AttributeValue::Udata`). -/
def isUdataA : AttrValue → Bool
  | AttrValue.Udata _ => true
  | _ => false

/-- Whether an attribute value is a debug-string reference. -/
def isStrRefA : AttrValue → Bool
  | AttrValue.DebugStrRef _ => true
  | _ => false

/-- Substring occurrence on character lists (helper for `strContains`). -/
def subOccurs (pat : List Char) : List Char → Bool
  | [] => pat.isEmpty
  | c :: rest => pat.isPrefixOf (c :: rest) || subOccurs pat rest

/-- Rust `str::contains` with a string pattern: substring occurrence. -/
def strContains (s pat : String) : Bool := subOccurs pat.data s.data

/-- Lines 72-74 of `tracer.rs`: resolve a `.debug_str` offset, substituting
the empty string both for a failed lookup (`unwrap_or_else` with the empty
C string) and for a non-UTF-8 name (`to_str().unwrap_or("")`). -/
def strLookup (debug_str : Nat → Except PErr (Option String)) (o : Nat) : String :=
  match debug_str o with
  | Except.error _ => ""
  | Except.ok none => ""
  | Except.ok (some s) => s

/-- Function `generate_func_desc` of `tracer.rs` (lines 53-87).  `dm` stands for
`rustc_demangle::demangle` composed with `to_string`; `debug_str` stands
for the `.debug_str` table: `Except.error` is a failed `get_str` (the code
substitutes the empty C string), `Except.ok none` is a non-UTF-8 name (the
code substitutes `""`), and `Except.ok (some s)` is a decoded name. -/
def generate_func_desc (dm : String → String)
    (debug_str : Nat → Except PErr (Option String)) (die : Die) :
    Except PErr (Nat × Nat × FunctionType) := do
  let lowAttr ← die.low
  let highAttr ← die.high
  let linkageAttr ← die.linkage
  -- Low is a program counter address so stored in an Addr
  let low := match lowAttr with
    | some (AttrValue.Addr x) => x
    | _ => 0
  -- High is an offset from the base pc, therefore is u64 data.
  let high := match highAttr with
    | some (AttrValue.Udata x) => x
    | _ => 0
  let func_type := match linkageAttr with
    | some (AttrValue.DebugStrRef offset) =>
      let name := dm (strLookup debug_str offset)
      if strContains name "tests::" then FunctionType.Test
      else if strContains name "__test::main" then FunctionType.Generated
      else FunctionType.Standard
    | _ => FunctionType.Standard
  pure (low, high, func_type)

/-- Function `get_entry_points` of `tracer.rs` (lines 93-110): `dies` is the list of
subprogram entries met by the depth-first cursor walk; a descriptor whose
generation fails is dropped (`if let Ok`), the rest are kept in order. -/
def get_entry_points (dm : String → String)
    (debug_str : Nat → Except PErr (Option String)) (dies : List Die) :
    List (Nat × Nat × FunctionType) :=
  dies.filterMap (fun d => (generate_func_desc dm debug_str d).toOption)

/-- One row of a line-number program, as consumed by the loop body of
`get_addresses_from_program`.  `hasFile` is `ln_row.file(header)` being
`Some`; `dir` is the directory entry (`none`: absent; `some none`: bytes
not UTF-8; `some (some p)`: decoded); `fileName` is `path_name` (`none`:
bytes not UTF-8); `line` is `ln_row.line()`. -/
structure Row where
  hasFile : Bool
  dir : Option (Option MPath)
  line : Option Nat
  fileName : Option MPath
  address : Nat

/-- The filesystem the interpreter consults: `canon` is
`Path::canonicalize` (fails when the path does not resolve), `is_file` is
`Path::is_file`. -/
structure Fs where
  canon : MPath → Option MPath
  is_file : MPath → Bool

/-- The path built from the row's directory entry: `PathBuf::new()` plus
`push(temp)` when the directory decodes, else the empty relative path. -/
def dirPath (d : Option (Option MPath)) : MPath :=
  match d with
  | some (some p) => p
  | _ => MPath.mk false []

/-- Lines 131-141 of `tracer.rs`: decide whether the directory path is in
the target directory, canonicalizing a relative non-`target` path
best-effort.  Returns `(is_target, fixed path)`. -/
def checkDir (fs : Fs) (project : MPath) (p0 : MPath) : Bool × MPath :=
  if p0.isRelative then
    (p0.startsWith relTarget,
     if !(p0.startsWith relTarget) then
       match fs.canon p0 with
       | some p => p
       | none => p0
     else p0)
  else (p0.startsWith (project.push relTarget), p0)

/-- The directory-level acceptance of a row (lines 119-143 of
`tracer.rs`): `some p1` when the row has a file entry and the fixed
directory path passes the target check and lies in the project. -/
def rowDirResolved (fs : Fs) (project : MPath) (row : Row) : Option MPath :=
  if !row.hasFile then none
  else
    if (checkDir fs project (dirPath row.dir)).1 then none
    else if !((checkDir fs project (dirPath row.dir)).2.startsWith project) then none
    else some (checkDir fs project (dirPath row.dir)).2

/-- Lines 162-166 of `tracer.rs`: first seed-table entry whose low address
equals the row's address, else `Unknown`. -/
def seedLookup (entries : List (Nat × LineType)) (address : Nat) : LineType :=
  ((((entries.filter (fun e => e.1 == address)).map (fun e => e.2))).head?).getD
    LineType.Unknown

/-- The per-row body of `get_addresses_from_program` (lines 119-179 of
`tracer.rs`): `some record` when the row is accepted. -/
def processRow (fs : Fs) (entries : List (Nat × LineType)) (project : MPath)
    (row : Row) : Option TracerData :=
  match rowDirResolved fs project row with
  | none => none
  | some p1 =>
    match row.line with
    | none => none
    | some line =>
      match row.fileName with
      | none => none
      | some f =>
        if !(fs.is_file (p1.push f)) then none
        else
          -- TODO HACK: If in tests/ directory force it to a TestEntry
          some ⟨p1.push f, line, row.address,
            match seedLookup entries row.address,
                p1.startsWith (project.push relTests) with
            | LineType.FunctionEntry e, true => LineType.TestEntry e
            | x, _ => x, 0⟩

/-- Function `get_addresses_from_program` of `tracer.rs` (lines 112-186): the rows
of every sequence, in order, filtered through `processRow`.  The one
fallible step, `prog.sequences()`, is modelled at the unit level. -/
def get_addresses_from_program (fs : Fs) (entries : List (Nat × LineType))
    (project : MPath) (seqs : List (List Row)) : List TracerData :=
  seqs.flatMap (fun rows => rows.filterMap (processRow fs entries project))

/-- One compilation unit as consumed by the loop of `get_line_addresses`:
`abbrev_ok` is `cu.abbreviations` succeeding; `dies` are the subprogram
entries handed to `get_entry_points`; `stmt_list` is the root entry
resolving with a `DebugLineRef` statement list; `prog` is the line
program: the outer `Except` is `debug_line.program(offset, ...)` (whose
error the source propagates with `?`), the inner one is
`prog.sequences()` inside `get_addresses_from_program` (whose error the
source swallows with `if let Ok`). -/
structure CUnit where
  abbrev_ok : Bool
  dies : List Die
  stmt_list : Bool
  prog : Except PErr (Except PErr (List (List Row)))

/-- Lines 207-215 of `tracer.rs`: seed table from the entry points. -/
def unitEntries (funcs : List (Nat × Nat × FunctionType)) :
    List (Nat × LineType) :=
  funcs.map (fun f =>
    match f.2.2 with
    | FunctionType.Test => (f.1, LineType.TestEntry f.2.1)
    | FunctionType.Standard => (f.1, LineType.FunctionEntry f.2.1)
    | FunctionType.Generated => (f.1, LineType.TestMain))

/-- The per-unit loop of `get_line_addresses` (lines 200-229 of
`tracer.rs`), producing the concatenated record list before aggregation.
A unit with a bad abbreviation table or no statement list is skipped; a
failing `debug_line.program` aborts with `Except.error` (the source's
`?`); a failing `sequences()` skips the unit. -/
def collectUnits (dm : String → String)
    (debug_str : Nat → Except PErr (Option String)) (fs : Fs)
    (project : MPath) : List CUnit → Except PErr (List TracerData)
  | [] => Except.ok []
  | u :: rest =>
    if !u.abbrev_ok then collectUnits dm debug_str fs project rest
    else
      let entries := unitEntries (get_entry_points dm debug_str u.dies)
      if !u.stmt_list then collectUnits dm debug_str fs project rest
      else
        match u.prog with
        | Except.error e => Except.error e
        | Except.ok (Except.error _) => collectUnits dm debug_str fs project rest
        | Except.ok (Except.ok seqs) =>
          match collectUnits dm debug_str fs project rest with
          | Except.error e => Except.error e
          | Except.ok restData =>
            Except.ok (get_addresses_from_program fs entries project seqs ++ restData)

/-- Deduplication key: `(path, line)`, as in the `check` hash set. -/
def keyOf (x : TracerData) : MPath × Nat := (x.path, x.line)

/-- The filter chain of lines 233-239 of `tracer.rs`, run element-wise as
Rust iterator adaptors do: the tests filter, the ignore-set filter, the
`check.insert` deduplication, then the `TestMain` filter.  `seen` is the
`check` hash set.  Note the insertion happens before the `TestMain` test,
so a `TestMain` record claims its `(path, line)` slot even though it is
then dropped. -/
def aggregateFilter (project : MPath) (ignore : List (MPath × Nat))
    (ignore_tests : Bool) : List TracerData → List (MPath × Nat) →
    List TracerData
  | [], _ => []
  | x :: xs, seen =>
    if ignore_tests && x.path.startsWith (project.push relTests) then
      aggregateFilter project ignore ignore_tests xs seen
    else if (x.path, x.line) ∈ ignore then
      aggregateFilter project ignore ignore_tests xs seen
    else if (x.path, x.line) ∈ seen then
      aggregateFilter project ignore ignore_tests xs seen
    else if x.trace_type = LineType.TestMain then
      aggregateFilter project ignore ignore_tests xs ((x.path, x.line) :: seen)
    else
      x :: aggregateFilter project ignore ignore_tests xs ((x.path, x.line) :: seen)

/-- The fold of lines 256-263 of `tracer.rs`: largest address delta over
`addrs` that is positive and at most `endpoint`, or `0`. -/
def foldDelta (address endpoint : Nat) (addrs : List Nat) : Nat :=
  addrs.foldl
    (fun acc x => if address + acc < x ∧ x - address ≤ endpoint then x - address else acc) 0

/-- Lines 244-266 of `tracer.rs`: rewrite a surviving `TestEntry` record's
extent offset to the fold result; other records are untouched. -/
def recompute (addrs : List Nat) (x : TracerData) : TracerData :=
  match x.trace_type with
  | LineType.TestEntry endpoint =>
    { x with trace_type := LineType.TestEntry (foldDelta x.address endpoint addrs) }
  | _ => x

/-- The whole aggregation step of `get_line_addresses` (lines 230-266):
the filter chain, then the `TestEntry` offset recomputation over the
surviving addresses. -/
def aggregate (project : MPath) (ignore : List (MPath × Nat))
    (ignore_tests : Bool) (rs : List TracerData) : List TracerData :=
  (aggregateFilter project ignore ignore_tests rs []).map
    (recompute ((aggregateFilter project ignore ignore_tests rs []).map
      (fun x => x.address)))

/-- Function `get_line_addresses` of `tracer.rs` (lines 188-268). -/
def get_line_addresses (dm : String → String)
    (debug_str : Nat → Except PErr (Option String)) (fs : Fs)
    (project : MPath) (units : List CUnit) (ignore : List (MPath × Nat))
    (ignore_tests : Bool) : Except PErr (List TracerData) :=
  match collectUnits dm debug_str fs project units with
  | Except.error e => Except.error e
  | Except.ok rs => Except.ok (aggregate project ignore ignore_tests rs)

/-- First-record deduplication keyed on `(path, line)`; used only by the
spec-order aggregation below. -/
def dedupFirst : List TracerData → List (MPath × Nat) → List TracerData
  | [], _ => []
  | x :: xs, seen =>
    if (x.path, x.line) ∈ seen then dedupFirst xs seen
    else x :: dedupFirst xs ((x.path, x.line) :: seen)

/-- Aggregation in the order the specification states it (drop `TestMain`
first, ignore filters second and third, deduplicate fourth, recompute
fifth).  This definition follows the spec's words, not the source; it is
compared with `aggregate` to settle the ordering claim. -/
def aggregate_spec (project : MPath) (ignore : List (MPath × Nat))
    (ignore_tests : Bool) (rs : List TracerData) : List TracerData :=
  let s1 := rs.filter (fun x => !decide (x.trace_type = LineType.TestMain))
  let s2 := s1.filter
    (fun x => !(ignore_tests && x.path.startsWith (project.push relTests)))
  let s3 := s2.filter (fun x => !decide ((x.path, x.line) ∈ ignore))
  let s4 := dedupFirst s3 []
  s4.map (recompute (s4.map (fun x => x.address)))

/-- The combined pass condition of the first two filters of lines 234-235
of `tracer.rs` (not under tests when `ignore_tests`, and not ignored). -/
def passes (project : MPath) (ignore : List (MPath × Nat))
    (ignore_tests : Bool) (x : TracerData) : Bool :=
  !(ignore_tests && x.path.startsWith (project.push relTests)) &&
    !(decide ((x.path, x.line) ∈ ignore))

/-- Outcome of one `waitpid` as matched by `collect_coverage` in
`main.rs`: the expected `Stopped(_, SIGTRAP)`, any other `Ok` status
(for example the child already exited), or `Err`. -/
inductive WaitRes where
  | stoppedTrap
  | otherStatus
  | errWait
deriving DecidableEq

/-- Observable actions of the tracer parent, in order of occurrence.
`reportedExit` never occurs in the embedded code; it is in the vocabulary
so its absence is statable. -/
inductive TraceEvent where
  | waited
  | contIssued
  | loggedUnexpected
  | loggedWaitErr
  | loggedForkErr
  | reportedExit (code : Nat)
deriving DecidableEq

/-- Whether an event reports a child's exit status. -/
def isExitReport : TraceEvent → Bool
  | TraceEvent.reportedExit _ => true
  | _ => false

/-- Whether an event is a wait call. -/
def isWaitEvent : TraceEvent → Bool
  | TraceEvent.waited => true
  | _ => false

/-- Function `collect_coverage` of `main.rs` (lines 114-128): one `waitpid`; on the
initial SIGTRAP stop a `PTRACE_CONT` whose failure hits `.expect(...)`
and panics (`Except.error`); any other wait outcome is only logged.  The
function then returns — there is no further wait and no exit-status or
hit-count report. -/
def collect_coverage (w : WaitRes) (contOk : Bool) :
    Except PErr (List TraceEvent) :=
  match w with
  | WaitRes.stoppedTrap =>
    if contOk then Except.ok [TraceEvent.waited, TraceEvent.contIssued]
    else Except.error PErr.err
  | WaitRes.otherStatus => Except.ok [TraceEvent.waited, TraceEvent.loggedUnexpected]
  | WaitRes.errWait => Except.ok [TraceEvent.waited, TraceEvent.loggedWaitErr]

/-- Function `execute_test` of `main.rs` (lines 130-145), run in the forked child:
a failed `PTRACE_TRACEME` or a failed `execve` panics the child
(`Except.error`); on success the process image is replaced. -/
def execute_test (traceOk execOk : Bool) : Except PErr Unit :=
  if !traceOk then Except.error PErr.err
  else if !execOk then Except.error PErr.err
  else Except.ok ()

/-- Result of `fork()` as seen by the loop of `main` (lines 95-110). -/
inductive ForkRes where
  | parent
  | forkErr
deriving DecidableEq

/-- One test binary's environment: the fork outcome, the first wait
outcome in the parent, and whether `PTRACE_CONT` succeeds. -/
structure TestCase where
  fork : ForkRes
  wait : WaitRes
  contOk : Bool

/-- One iteration of the loop of `main`: a fork error is logged and the
loop moves on; otherwise the parent branch runs `collect_coverage`. -/
def runOne (t : TestCase) : Except PErr (List TraceEvent) :=
  match t.fork with
  | ForkRes.forkErr => Except.ok [TraceEvent.loggedForkErr]
  | ForkRes.parent => collect_coverage t.wait t.contOk

/-- The loop of `main` over `comp.tests`: per-child event lists in order,
plus whether the run aborted (a panic in `collect_coverage` kills the
whole tracer process, so no later binary is traced). -/
def runAll : List TestCase → List (List TraceEvent) × Bool
  | [] => ([], false)
  | t :: ts =>
    match runOne t with
    | Except.error _ => ([], true)
    | Except.ok evs => (evs :: (runAll ts).1, (runAll ts).2)

/-- Concrete project root used by witnesses and counterexamples. -/
def projX : MPath := ⟨true, ["proj"]⟩

/-- Concrete filesystem: nothing canonicalizes, every path is a file. -/
def fsX : Fs := ⟨fun _ => none, fun _ => true⟩

/-- A row in `proj/src` at line 7 for a given address. -/
def rowX (a : Nat) : Row :=
  ⟨true, some (some ⟨true, ["proj", "src"]⟩), some 7, some ⟨false, ["lib.rs"]⟩, a⟩

/-- Constant `.debug_str` table whose names never decode. -/
def stNone : Nat → Except PErr (Option String) := fun _ => Except.ok none

/-- A compilation unit whose line program yields one accepted row. -/
def uGood : CUnit := ⟨true, [], true, Except.ok (Except.ok [[rowX 3]])⟩

/-- A compilation unit whose line-program header fails to parse. -/
def uBad : CUnit := ⟨true, [], true, Except.error PErr.err⟩

/-- The single record produced by `uGood`. -/
def tdG : TracerData :=
  ⟨⟨true, ["proj", "src", "lib.rs"]⟩, 7, 3, LineType.Unknown, 0⟩

/-- Two-record aggregation input used by witnesses: a `TestEntry` record
and a `Statement` record at distinct identities. -/
def rsW : List TracerData :=
  [⟨⟨true, ["proj", "a.rs"]⟩, 1, 100, LineType.TestEntry 50, 0⟩,
   ⟨⟨true, ["proj", "b.rs"]⟩, 2, 120, LineType.Statement, 0⟩]

/-- The first record of `rsW`. -/
def rW1 : TracerData := ⟨⟨true, ["proj", "a.rs"]⟩, 1, 100, LineType.TestEntry 50, 0⟩

/-- The record emitted for `rowX 2` on `fsX`. -/
def tdW2 : TracerData :=
  ⟨⟨true, ["proj", "src", "lib.rs"]⟩, 7, 2, LineType.Unknown, 0⟩

/-- Filesystem where `./target/debug` canonicalizes into the project's
target directory, as it does when the working directory is the project
root. -/
def fsC3 : Fs :=
  ⟨fun p => if p = ⟨false, [".", "target", "debug"]⟩ then
      some ⟨true, ["proj", "target", "debug"]⟩
    else none,
   fun _ => true⟩

/-- A row whose directory entry is the relative path `./target/debug`. -/
def rowC3 : Row :=
  ⟨true, some (some ⟨false, [".", "target", "debug"]⟩), some 4,
   some ⟨false, ["out.rs"]⟩, 7⟩

/-- A row in the integration-test subtree `proj/tests`. -/
def rowT : Row :=
  ⟨true, some (some ⟨true, ["proj", "tests"]⟩), some 3,
   some ⟨false, ["it.rs"]⟩, 9⟩

/-- The record emitted for `rowT` with a `Statement` seed at address 9. -/
def tdT9 : TracerData :=
  ⟨⟨true, ["proj", "tests", "it.rs"]⟩, 3, 9, LineType.Statement, 0⟩

/-! Helper lemmas. -/

/-- The recompute step never changes a record's deduplication key. -/
lemma keyOf_recompute (A : List Nat) (y : TracerData) :
    keyOf (recompute A y) = keyOf y := by
  unfold recompute
  split <;> rfl

/-- The recompute step never introduces a `TestMain` classification. -/
lemma recompute_testmain (A : List Nat) (y : TracerData)
    (h : (recompute A y).trace_type = LineType.TestMain) :
    y.trace_type = LineType.TestMain := by
  unfold recompute at h
  split at h
  · exact absurd h (by simp)
  · exact h

/-- The recompute step never changes a record's address. -/
lemma address_recompute (A : List Nat) (y : TracerData) :
    (recompute A y).address = y.address := by
  unfold recompute
  split <;> rfl

/-- Every record the filter chain keeps is not `TestMain`, has a key not
yet in the seen set, and is the first filter-passing record of the input
with its key. -/
lemma aggF_mem {project : MPath} {ignore : List (MPath × Nat)} {igt : Bool} :
    ∀ (rs : List TracerData) (seen : List (MPath × Nat)) (x : TracerData),
      x ∈ aggregateFilter project ignore igt rs seen →
      x.trace_type ≠ LineType.TestMain ∧ keyOf x ∉ seen ∧
        (rs.filter (passes project ignore igt)).find?
          (fun y => decide (keyOf y = keyOf x)) = some x := by
  intro rs
  induction rs with
  | nil =>
    intro seen x hx
    simp [aggregateFilter] at hx
  | cons r xs ih =>
    intro seen x hx
    rw [aggregateFilter] at hx
    by_cases h1 : (igt && r.path.startsWith (project.push relTests)) = true
    · rw [if_pos h1] at hx
      have hp : passes project ignore igt r = false := by
        simp [passes, h1]
      obtain ⟨htm, hseen, hfind⟩ := ih seen x hx
      refine ⟨htm, hseen, ?_⟩
      rw [List.filter_cons, if_neg (by simp [hp])]
      exact hfind
    · rw [if_neg h1] at hx
      by_cases h2 : (r.path, r.line) ∈ ignore
      · rw [if_pos h2] at hx
        have hp : passes project ignore igt r = false := by
          simp [passes, h2]
        obtain ⟨htm, hseen, hfind⟩ := ih seen x hx
        refine ⟨htm, hseen, ?_⟩
        rw [List.filter_cons, if_neg (by simp [hp])]
        exact hfind
      · rw [if_neg h2] at hx
        have hb : (igt && r.path.startsWith (project.push relTests)) = false := by
          revert h1
          cases igt && r.path.startsWith (project.push relTests) <;> simp
        have hp : passes project ignore igt r = true := by
          simp [passes, hb, h2]
        by_cases h3 : (r.path, r.line) ∈ seen
        · rw [if_pos h3] at hx
          obtain ⟨htm, hseen, hfind⟩ := ih seen x hx
          have hne : keyOf r ≠ keyOf x := by
            intro he
            exact hseen (he ▸ h3)
          refine ⟨htm, hseen, ?_⟩
          rw [List.filter_cons, if_pos (by simp [hp]),
            List.find?_cons_of_neg _ (by simp [hne])]
          exact hfind
        · rw [if_neg h3] at hx
          by_cases h4 : r.trace_type = LineType.TestMain
          · rw [if_pos h4] at hx
            obtain ⟨htm, hseen, hfind⟩ := ih _ x hx
            have hner : keyOf x ≠ keyOf r := by
              intro he
              exact hseen (by rw [he]; exact List.mem_cons_self _ _)
            refine ⟨htm, fun hc => hseen (List.mem_cons_of_mem _ hc), ?_⟩
            rw [List.filter_cons, if_pos (by simp [hp]),
              List.find?_cons_of_neg _ (by simp only [decide_eq_true_eq]; exact Ne.symm hner)]
            exact hfind
          · rw [if_neg h4] at hx
            rcases List.mem_cons.mp hx with rfl | hx'
            · refine ⟨h4, h3, ?_⟩
              rw [List.filter_cons, if_pos (by simp [hp]),
                List.find?_cons_of_pos _ (by simp)]
            · obtain ⟨htm, hseen, hfind⟩ := ih _ x hx'
              have hner : keyOf x ≠ keyOf r := by
                intro he
                exact hseen (by rw [he]; exact List.mem_cons_self _ _)
              refine ⟨htm, fun hc => hseen (List.mem_cons_of_mem _ hc), ?_⟩
              rw [List.filter_cons, if_pos (by simp [hp]),
                List.find?_cons_of_neg _ (by simp only [decide_eq_true_eq]; exact Ne.symm hner)]
              exact hfind

/-- The keys of the filter chain's output are pairwise distinct. -/
lemma aggF_nodup {project : MPath} {ignore : List (MPath × Nat)} {igt : Bool} :
    ∀ (rs : List TracerData) (seen : List (MPath × Nat)),
      ((aggregateFilter project ignore igt rs seen).map keyOf).Nodup := by
  intro rs
  induction rs with
  | nil =>
    intro seen
    simp [aggregateFilter]
  | cons r xs ih =>
    intro seen
    rw [aggregateFilter]
    by_cases h1 : (igt && r.path.startsWith (project.push relTests)) = true
    · rw [if_pos h1]; exact ih seen
    · rw [if_neg h1]
      by_cases h2 : (r.path, r.line) ∈ ignore
      · rw [if_pos h2]; exact ih seen
      · rw [if_neg h2]
        by_cases h3 : (r.path, r.line) ∈ seen
        · rw [if_pos h3]; exact ih seen
        · rw [if_neg h3]
          by_cases h4 : r.trace_type = LineType.TestMain
          · rw [if_pos h4]; exact ih _
          · rw [if_neg h4]
            rw [List.map_cons, List.nodup_cons]
            refine ⟨?_, ih _⟩
            intro hmem
            obtain ⟨y, hy, hkey⟩ := List.mem_map.mp hmem
            have := (aggF_mem xs _ y hy).2.1
            exact this (by rw [hkey]; exact List.mem_cons_self _ _)

/-- The fold of `foldDelta` starting from an arbitrary accumulator. -/
def foldDeltaFrom (address endpoint acc : Nat) (addrs : List Nat) : Nat :=
  addrs.foldl
    (fun acc x => if address + acc < x ∧ x - address ≤ endpoint then x - address else acc) acc

/-- Definition `foldDelta` is `foldDeltaFrom` started at `0`. -/
lemma foldDelta_eq_from (address endpoint : Nat) (addrs : List Nat) :
    foldDelta address endpoint addrs = foldDeltaFrom address endpoint 0 addrs := rfl

/-- The fold never decreases the accumulator. -/
lemma foldDeltaFrom_mono (address endpoint : Nat) :
    ∀ (l : List Nat) (acc : Nat), acc ≤ foldDeltaFrom address endpoint acc l := by
  intro l
  induction l with
  | nil => intro acc; exact Nat.le_refl _
  | cons x xs ih =>
    intro acc
    show acc ≤ foldDeltaFrom address endpoint
      (if address + acc < x ∧ x - address ≤ endpoint then x - address else acc) xs
    refine Nat.le_trans ?_ (ih _)
    split
    · next h => exact Nat.le_of_lt (Nat.lt_sub_of_add_lt (by omega))
    · exact Nat.le_refl _

/-- Every qualifying delta of the list is bounded by the fold result. -/
lemma foldDeltaFrom_ub (address endpoint : Nat) :
    ∀ (l : List Nat) (acc x : Nat), x ∈ l → address < x → x - address ≤ endpoint →
      x - address ≤ foldDeltaFrom address endpoint acc l := by
  intro l
  induction l with
  | nil => intro acc x hx; cases hx
  | cons y ys ih =>
    intro acc x hx hlt hle
    rcases List.mem_cons.mp hx with rfl | hx'
    · show x - address ≤ foldDeltaFrom address endpoint
        (if address + acc < x ∧ x - address ≤ endpoint then x - address else acc) ys
      by_cases hc : address + acc < x ∧ x - address ≤ endpoint
      · rw [if_pos hc]
        exact foldDeltaFrom_mono address endpoint ys _
      · rw [if_neg hc]
        have hyacc : x - address ≤ acc := by
          rcases Classical.not_and_iff_or_not_not.mp hc with h | h
          · omega
          · exact absurd hle h
        exact Nat.le_trans hyacc (foldDeltaFrom_mono address endpoint ys acc)
    · exact ih _ x hx' hlt hle

/-- The fold result is the initial accumulator or a qualifying delta. -/
lemma foldDeltaFrom_src (address endpoint : Nat) :
    ∀ (l : List Nat) (acc : Nat),
      foldDeltaFrom address endpoint acc l = acc ∨
        ∃ x ∈ l, (address < x ∧ x - address ≤ endpoint) ∧
          foldDeltaFrom address endpoint acc l = x - address := by
  intro l
  induction l with
  | nil => intro acc; exact Or.inl rfl
  | cons y ys ih =>
    intro acc
    have hstep : foldDeltaFrom address endpoint acc (y :: ys)
        = foldDeltaFrom address endpoint
            (if address + acc < y ∧ y - address ≤ endpoint then y - address else acc) ys := rfl
    rw [hstep]
    by_cases hc : address + acc < y ∧ y - address ≤ endpoint
    · rw [if_pos hc]
      rcases ih (y - address) with h | ⟨x, hx, hq, he⟩
      · exact Or.inr ⟨y, List.mem_cons_self _ _, ⟨by omega, hc.2⟩, h⟩
      · exact Or.inr ⟨x, List.mem_cons_of_mem _ hx, hq, he⟩
    · rw [if_neg hc]
      rcases ih acc with h | ⟨x, hx, hq, he⟩
      · exact Or.inl h
      · exact Or.inr ⟨x, List.mem_cons_of_mem _ hx, hq, he⟩

/-- Shape of a successfully resolved row directory: the fixed path is in
the project, a relative directory was only tested against a literal
leading `target` component, an absolute one against `project/target`. -/
lemma rowDirResolved_spec {fs : Fs} {project : MPath} {row : Row} {p1 : MPath}
    (h : rowDirResolved fs project row = some p1) :
    p1.startsWith project = true ∧
      ((dirPath row.dir).isRelative = true →
        (dirPath row.dir).startsWith relTarget = false) ∧
      ((dirPath row.dir).isRelative = false →
        p1 = dirPath row.dir ∧
          p1.startsWith (project.push relTarget) = false) := by
  unfold rowDirResolved at h
  split at h
  · cases h
  · split at h
    · cases h
    · next htp =>
      split at h
      · cases h
      · next hsw =>
        have hp1 : p1 = (checkDir fs project (dirPath row.dir)).2 := by
          injection h with h
          exact h.symm
        have hproj : p1.startsWith project = true := by
          rw [hp1]
          revert hsw
          cases (checkDir fs project (dirPath row.dir)).2.startsWith project <;> simp
        refine ⟨hproj, fun hrel => ?_, fun hrel => ?_⟩
        · have hfst : (checkDir fs project (dirPath row.dir)).1
              = (dirPath row.dir).startsWith relTarget := by
            unfold checkDir
            rw [if_pos hrel]
          rw [← hfst]
          revert htp
          cases (checkDir fs project (dirPath row.dir)).1 <;> simp
        · have hcd : checkDir fs project (dirPath row.dir)
              = ((dirPath row.dir).startsWith (project.push relTarget),
                 dirPath row.dir) := by
            unfold checkDir
            rw [if_neg (by rw [hrel]; exact Bool.false_ne_true)]
          rw [hcd] at htp hp1
          refine ⟨hp1, ?_⟩
          rw [hp1]
          revert htp
          cases (dirPath row.dir).startsWith (project.push relTarget) <;> simp

/-- Shape of an accepted row: the record is built from the resolved
directory path joined with the filename, the row line and address, and
the seed lookup with the tests-subtree override applied only to
`FunctionEntry`. -/
lemma processRow_eq_some {fs : Fs} {entries : List (Nat × LineType)}
    {project : MPath} {row : Row} {td : TracerData}
    (h : processRow fs entries project row = some td) :
    ∃ p1 ln f, rowDirResolved fs project row = some p1 ∧
      row.line = some ln ∧ row.fileName = some f ∧
      fs.is_file (p1.push f) = true ∧
      td = ⟨p1.push f, ln, row.address,
        match seedLookup entries row.address,
            p1.startsWith (project.push relTests) with
        | LineType.FunctionEntry e, true => LineType.TestEntry e
        | x, _ => x, 0⟩ := by
  unfold processRow at h
  split at h
  · cases h
  · next p1 hp1 =>
    split at h
    · cases h
    · next ln hln =>
      split at h
      · cases h
      · next f hf =>
        split at h
        · cases h
        · next hif =>
          refine ⟨p1, ln, f, hp1, hln, hf, ?_, ?_⟩
          · revert hif
            cases hb : fs.is_file (p1.push f) <;> simp
          · injection h with h
            exact h.symm

/-! Claim theorems. -/

/-- C1 counterexample: aggregation does not drop `TestMain` records before
deduplicating.  With two records at the same `(path, line)` — a `TestMain`
record first, a `Statement` record second — the code's aggregation yields
no survivor at that identity (the `TestMain` record consumes the
deduplication slot before being dropped), while aggregation in the
spec-stated order keeps the `Statement` record, which is the first record
eligible at the deduplication step after `TestMain` records are dropped. -/
theorem aggregate_order_counterexample :
    aggregate projX [] false
      [⟨⟨true, ["proj", "src", "lib.rs"]⟩, 7, 1, LineType.TestMain, 0⟩,
       ⟨⟨true, ["proj", "src", "lib.rs"]⟩, 7, 2, LineType.Statement, 0⟩] = []
    ∧ aggregate_spec projX [] false
      [⟨⟨true, ["proj", "src", "lib.rs"]⟩, 7, 1, LineType.TestMain, 0⟩,
       ⟨⟨true, ["proj", "src", "lib.rs"]⟩, 7, 2, LineType.Statement, 0⟩] =
      [⟨⟨true, ["proj", "src", "lib.rs"]⟩, 7, 2, LineType.Statement, 0⟩] :=
  ⟨by decide, by decide⟩

/-- C1 amended: aggregation applies the ignore filters, deduplicates by
`(path, line)` keeping the first filter-passing record per identity, and
only then drops `TestMain` records.  Hence at most one record per
`(path, line)` survives, and every survivor is the first ignore-passing
record of the input with its identity, with a non-`TestMain`
classification; when the first ignore-passing record at an identity is
`TestMain`, nothing at that identity survives. -/
theorem aggregate_dedup_amended (project : MPath) (ignore : List (MPath × Nat))
    (igt : Bool) (rs : List TracerData) :
    (aggregate project ignore igt rs).map keyOf
        = (aggregateFilter project ignore igt rs []).map keyOf
    ∧ ((aggregate project ignore igt rs).map keyOf).Nodup
    ∧ ∀ x ∈ aggregateFilter project ignore igt rs [],
        x.trace_type ≠ LineType.TestMain ∧
          (rs.filter (passes project ignore igt)).find?
            (fun y => decide (keyOf y = keyOf x)) = some x := by
  have hmap : (aggregate project ignore igt rs).map keyOf
      = (aggregateFilter project ignore igt rs []).map keyOf := by
    unfold aggregate
    rw [List.map_map]
    exact List.map_congr_left (fun y _ => keyOf_recompute _ y)
  refine ⟨hmap, ?_, ?_⟩
  · rw [hmap]
    exact aggF_nodup rs []
  · intro x hx
    obtain ⟨h1, _, h3⟩ := aggF_mem rs [] x hx
    exact ⟨h1, h3⟩

/-- C1 witness: concrete run of the amended claim at a two-record input. -/
theorem aggregate_dedup_amended_witness :
    rW1 ∈ aggregateFilter projX [] false rsW [] ∧
      (rW1.trace_type ≠ LineType.TestMain ∧
        (rsW.filter (passes projX [] false)).find?
          (fun y => decide (keyOf y = keyOf rW1)) = some rW1) :=
  ⟨by decide, (aggregate_dedup_amended projX [] false rsW).2.2 rW1 (by decide)⟩

/-- C2: every record in a successful `get_line_addresses` result has a
classification different from `TestMain`, for every object file (unit
list, string table, demangler, filesystem), ignore set and `ignore_tests`
value. -/
theorem no_testmain_survives (dm : String → String)
    (st : Nat → Except PErr (Option String)) (fs : Fs) (project : MPath)
    (units : List CUnit) (ignore : List (MPath × Nat)) (igt : Bool)
    (out : List TracerData)
    (h : get_line_addresses dm st fs project units ignore igt = Except.ok out) :
    ∀ td ∈ out, td.trace_type ≠ LineType.TestMain := by
  intro td htd hc
  unfold get_line_addresses at h
  cases hcu : collectUnits dm st fs project units with
  | error e =>
    rw [hcu] at h
    cases h
  | ok rs =>
    rw [hcu] at h
    injection h with hout
    subst hout
    unfold aggregate at htd
    obtain ⟨y, hy, hrec⟩ := List.mem_map.mp htd
    exact (aggF_mem rs [] y hy).1 (recompute_testmain _ _ (by rw [hrec]; exact hc))

/-- C2 witness: a one-unit object file yielding one surviving record. -/
theorem no_testmain_survives_witness :
    get_line_addresses id stNone fsX projX [uGood] [] false = Except.ok [tdG] ∧
      tdG.trace_type ≠ LineType.TestMain :=
  ⟨rfl,
   no_testmain_survives id stNone fsX projX [uGood] [] false [tdG] rfl
     tdG (List.mem_singleton.mpr rfl)⟩

/-- C4: a surviving `TestEntry` record's final extent offset is at most
its original raw offset, and equals the maximum address delta
`other.address - entry.address` over all surviving record addresses that
is strictly positive and at most the original offset; when no surviving
address qualifies, the final offset is `0`.  The bound hypothesis keeps
the `Nat` model inside the wrap-free range of the source's `u64`
arithmetic. -/
theorem test_entry_offset_max (project : MPath) (ignore : List (MPath × Nat))
    (igt : Bool) (rs : List TracerData) (i : Nat) (td : TracerData) (e0 : Nat)
    (hdd : (aggregateFilter project ignore igt rs [])[i]? = some td)
    (ht : td.trace_type = LineType.TestEntry e0)
    (_hov : td.address + e0 < 2 ^ 64) :
    ∃ e1,
      (aggregate project ignore igt rs)[i]? =
        some { td with trace_type := LineType.TestEntry e1 } ∧
      e1 ≤ e0 ∧
      (((∃ x ∈ (aggregateFilter project ignore igt rs []).map
            (fun r => r.address),
          (td.address < x ∧ x - td.address ≤ e0) ∧ x - td.address = e1) ∧
        ∀ x ∈ (aggregateFilter project ignore igt rs []).map
            (fun r => r.address),
          td.address < x → x - td.address ≤ e0 → x - td.address ≤ e1) ∨
       (e1 = 0 ∧ ∀ x ∈ (aggregateFilter project ignore igt rs []).map
            (fun r => r.address),
          ¬(td.address < x ∧ x - td.address ≤ e0))) := by
  refine ⟨foldDelta td.address e0
    ((aggregateFilter project ignore igt rs []).map (fun r => r.address)),
    ?_, ?_, ?_⟩
  · unfold aggregate
    rw [List.getElem?_map, hdd, Option.map_some']
    have hrec : recompute
        ((aggregateFilter project ignore igt rs []).map (fun r => r.address)) td
        = { td with trace_type := LineType.TestEntry (foldDelta td.address e0
            ((aggregateFilter project ignore igt rs []).map (fun r => r.address))) } := by
      unfold recompute
      rw [ht]
    rw [hrec]
  · rcases foldDeltaFrom_src td.address e0
        ((aggregateFilter project ignore igt rs []).map (fun r => r.address)) 0 with
      h | ⟨x, _, hq, he⟩
    · rw [foldDelta_eq_from, h]
      exact Nat.zero_le _
    · rw [foldDelta_eq_from, he]
      exact hq.2
  · by_cases hq : ∃ x ∈ (aggregateFilter project ignore igt rs []).map
        (fun r => r.address), td.address < x ∧ x - td.address ≤ e0
    · left
      obtain ⟨x0, hx0, hlt0, hle0⟩ := hq
      have hub : ∀ x ∈ (aggregateFilter project ignore igt rs []).map
          (fun r => r.address), td.address < x → x - td.address ≤ e0 →
          x - td.address ≤ foldDelta td.address e0
            ((aggregateFilter project ignore igt rs []).map (fun r => r.address)) :=
        fun x hx h1 h2 => foldDeltaFrom_ub td.address e0 _ 0 x hx h1 h2
      have hpos : 1 ≤ foldDelta td.address e0
          ((aggregateFilter project ignore igt rs []).map (fun r => r.address)) :=
        Nat.le_trans (by omega) (hub x0 hx0 hlt0 hle0)
      rcases foldDeltaFrom_src td.address e0
          ((aggregateFilter project ignore igt rs []).map (fun r => r.address)) 0 with
        h | ⟨x, hx, hqq, he⟩
      · rw [foldDelta_eq_from] at hpos
        omega
      · refine ⟨⟨x, hx, hqq, ?_⟩, hub⟩
        rw [foldDelta_eq_from, he]
    · right
      refine ⟨?_, fun x hx hc => hq ⟨x, hx, hc⟩⟩
      rcases foldDeltaFrom_src td.address e0
          ((aggregateFilter project ignore igt rs []).map (fun r => r.address)) 0 with
        h | ⟨x, hx, hqq, he⟩
      · rw [foldDelta_eq_from, h]
      · exact absurd ⟨x, hx, hqq⟩ hq

/-- C4 witness: concrete aggregation input with one `TestEntry` record
whose offset tightens from `50` to `20`. -/
theorem test_entry_offset_max_witness :
    (aggregateFilter projX [] false rsW [])[0]? = some rW1 ∧
      rW1.trace_type = LineType.TestEntry 50 ∧
      rW1.address + 50 < 2 ^ 64 ∧
      ∃ e1,
        (aggregate projX [] false rsW)[0]? =
          some { rW1 with trace_type := LineType.TestEntry e1 } ∧
        e1 ≤ 50 ∧
        (((∃ x ∈ (aggregateFilter projX [] false rsW []).map
              (fun r => r.address),
            (rW1.address < x ∧ x - rW1.address ≤ 50) ∧ x - rW1.address = e1) ∧
          ∀ x ∈ (aggregateFilter projX [] false rsW []).map
              (fun r => r.address),
            rW1.address < x → x - rW1.address ≤ 50 → x - rW1.address ≤ e1) ∨
         (e1 = 0 ∧ ∀ x ∈ (aggregateFilter projX [] false rsW []).map
              (fun r => r.address),
            ¬(rW1.address < x ∧ x - rW1.address ≤ 50))) :=
  ⟨by decide, rfl, by decide,
   test_entry_offset_max projX [] false rsW 0 rW1 50 (by decide) rfl (by decide)⟩

/-- C3 counterexample: a relative row directory `./target/debug` does not
have `target` as its first component, so it escapes the relative
build-output test, canonicalizes (as a real filesystem would, with the
working directory at the project root) into `proj/target/debug`, passes
the project check, and yields a record whose path lies inside the
build-output subtree. -/
theorem emitted_path_target_counterexample :
    processRow fsC3 [] projX rowC3 =
      some ⟨⟨true, ["proj", "target", "debug", "out.rs"]⟩, 4, 7,
        LineType.Unknown, 0⟩ ∧
      MPath.startsWith ⟨true, ["proj", "target", "debug", "out.rs"]⟩
        (projX.push relTarget) = true :=
  ⟨by decide, by decide⟩

/-- C3 amended: every emitted record's path is the checked directory path
joined with the row's filename, and the checked path lies within the
project root; the build-output exclusion holds in the form the code
tests it: an absolute directory path is verified to lie outside
`project/target`, while a relative one is only checked not to have the
literal first component `target` (canonicalization may still move it
into the build-output subtree, and the joined filename may leave it). -/
theorem emitted_path_checks_amended (fs : Fs) (entries : List (Nat × LineType))
    (project : MPath) (row : Row) (td : TracerData)
    (h : processRow fs entries project row = some td) :
    ∃ p1 f, rowDirResolved fs project row = some p1 ∧
      row.fileName = some f ∧
      td.path = p1.push f ∧
      p1.startsWith project = true ∧
      ((dirPath row.dir).isRelative = true →
        (dirPath row.dir).startsWith relTarget = false) ∧
      ((dirPath row.dir).isRelative = false →
        p1 = dirPath row.dir ∧
          p1.startsWith (project.push relTarget) = false) := by
  obtain ⟨p1, ln, f, hp1, _, hf, _, htd⟩ := processRow_eq_some h
  obtain ⟨hproj, hrel, habs⟩ := rowDirResolved_spec hp1
  exact ⟨p1, f, hp1, hf, by rw [htd], hproj, hrel, habs⟩

/-- C3 witness: concrete accepted row whose checks the amended claim
describes. -/
theorem emitted_path_checks_amended_witness :
    processRow fsX [] projX (rowX 2) = some tdW2 ∧
      ∃ p1 f, rowDirResolved fsX projX (rowX 2) = some p1 ∧
        (rowX 2).fileName = some f ∧
        tdW2.path = p1.push f ∧
        p1.startsWith projX = true ∧
        ((dirPath (rowX 2).dir).isRelative = true →
          (dirPath (rowX 2).dir).startsWith relTarget = false) ∧
        ((dirPath (rowX 2).dir).isRelative = false →
          p1 = dirPath (rowX 2).dir ∧
            p1.startsWith (projX.push relTarget) = false) :=
  ⟨by decide, emitted_path_checks_amended fsX [] projX (rowX 2) tdW2 (by decide)⟩

/-- C6 counterexample: a row in the integration-test subtree whose address
misses the descriptor table is classified `Unknown`, not forced to
`TestEntry`. -/
theorem tests_override_unknown_counterexample :
    processRow fsX [] projX rowT =
      some ⟨⟨true, ["proj", "tests", "it.rs"]⟩, 3, 9, LineType.Unknown, 0⟩ ∧
      rowDirResolved fsX projX rowT = some ⟨true, ["proj", "tests"]⟩ ∧
      MPath.startsWith ⟨true, ["proj", "tests"]⟩ (projX.push relTests) = true :=
  ⟨by decide, by decide, by decide⟩

/-- C6 amended: for a row resolved under the project's tests subtree, the
emitted classification is the descriptor lookup with only a
`FunctionEntry` result converted to `TestEntry` (same extent offset);
every other lookup result, `Unknown` included, is kept unchanged. -/
theorem tests_override_function_entry_amended (fs : Fs)
    (entries : List (Nat × LineType)) (project : MPath) (row : Row)
    (p1 : MPath) (td : TracerData)
    (h1 : rowDirResolved fs project row = some p1)
    (h2 : p1.startsWith (project.push relTests) = true)
    (h : processRow fs entries project row = some td) :
    td.trace_type = match seedLookup entries row.address with
      | LineType.FunctionEntry e => LineType.TestEntry e
      | d => d := by
  obtain ⟨q1, ln, f, hq1, _, _, _, htd⟩ := processRow_eq_some h
  rw [hq1] at h1
  injection h1 with h1
  subst h1
  rw [htd]
  rw [h2]
  cases seedLookup entries row.address <;> rfl

/-- C6 witness: a tests-subtree row whose lookup yields `Statement` keeps
`Statement`. -/
theorem tests_override_function_entry_amended_witness :
    rowDirResolved fsX projX rowT = some ⟨true, ["proj", "tests"]⟩ ∧
      MPath.startsWith ⟨true, ["proj", "tests"]⟩ (projX.push relTests) = true ∧
      processRow fsX [(9, LineType.Statement)] projX rowT = some tdT9 ∧
      tdT9.trace_type = match seedLookup [(9, LineType.Statement)] rowT.address with
        | LineType.FunctionEntry e => LineType.TestEntry e
        | d => d :=
  ⟨by decide, by decide, by decide,
   tests_override_function_entry_amended fsX [(9, LineType.Statement)] projX
     rowT ⟨true, ["proj", "tests"]⟩ tdT9 (by decide) (by decide) (by decide)⟩

/-- C5 counterexample: a unit whose line-program header fails to parse
(the `?` on `debug_line.program`) aborts `get_line_addresses` for the
whole binary — the following unit, which alone yields a record, is never
analyzed. -/
theorem line_program_error_fatal_counterexample :
    get_line_addresses id stNone fsX projX [uBad, uGood] [] false =
      Except.error PErr.err ∧
      get_line_addresses id stNone fsX projX [uGood] [] false =
        Except.ok [tdG] :=
  ⟨rfl, rfl⟩

/-- C5 amended: per-unit failures are non-fatal only for the abbreviation
table, the statement list, and the sequence reader inside
`get_addresses_from_program` — those skip the unit; a failure resolving
the line program itself (`debug_line.program`) is propagated and aborts
`get_line_addresses` for the whole binary. -/
theorem unit_error_scoping_amended (dm : String → String)
    (st : Nat → Except PErr (Option String)) (fs : Fs) (project : MPath)
    (ignore : List (MPath × Nat)) (igt : Bool) (dies : List Die) (sl : Bool)
    (pr : Except PErr (Except PErr (List (List Row)))) (e : PErr)
    (rest : List CUnit) :
    get_line_addresses dm st fs project (⟨false, dies, sl, pr⟩ :: rest) ignore igt
        = get_line_addresses dm st fs project rest ignore igt ∧
      get_line_addresses dm st fs project (⟨true, dies, false, pr⟩ :: rest) ignore igt
        = get_line_addresses dm st fs project rest ignore igt ∧
      get_line_addresses dm st fs project
          (⟨true, dies, true, Except.ok (Except.error e)⟩ :: rest) ignore igt
        = get_line_addresses dm st fs project rest ignore igt ∧
      get_line_addresses dm st fs project
          (⟨true, dies, true, Except.error e⟩ :: rest) ignore igt
        = Except.error e :=
  ⟨rfl, rfl, rfl, rfl⟩

/-- C7 counterexample: a subprogram entry whose low-address attribute
read fails is not kept with a defaulted low address — the whole
descriptor generation errors and `get_entry_points` discards the entry. -/
theorem attr_error_discards_desc_counterexample :
    generate_func_desc id stNone
        ⟨Except.error PErr.err, Except.ok (some (AttrValue.Udata 9)),
         Except.ok none⟩ = Except.error PErr.err ∧
      get_entry_points id stNone
        [⟨Except.error PErr.err, Except.ok (some (AttrValue.Udata 9)),
          Except.ok none⟩] = [] :=
  ⟨rfl, rfl⟩

/-- C7 amended: an error reading any of the three attributes makes
`generate_func_desc` fail as a whole, and `get_entry_points` then drops
that descriptor and continues with the remaining entries of the unit;
only an absent (or unexpected-form) attribute degrades the field to its
default. -/
theorem attr_error_scoping_amended (dm : String → String)
    (st : Nat → Except PErr (Option String)) (e : PErr)
    (ha hb : Except PErr (Option AttrValue)) (oa ob : Option AttrValue)
    (ds : List Die) :
    generate_func_desc dm st ⟨Except.error e, ha, hb⟩ = Except.error e ∧
      generate_func_desc dm st ⟨Except.ok oa, Except.error e, hb⟩ = Except.error e ∧
      generate_func_desc dm st ⟨Except.ok oa, Except.ok ob, Except.error e⟩
        = Except.error e ∧
      get_entry_points dm st (⟨Except.error e, ha, hb⟩ :: ds)
        = get_entry_points dm st ds :=
  ⟨rfl, rfl, rfl, rfl⟩

/-- C10: a present attribute of an unexpected encoding is treated exactly
like an absent one — a non-address low value and a non-unsigned-data
high value default to `0`, and a linkage value that is not a debug-string
reference, a failed string-table lookup, or a non-UTF-8 name all yield
classification `Standard`, the same result as the all-absent entry
(`dm "" = ""` reflects that demangling the empty name leaves it empty). -/
theorem attr_wrong_encoding_defaults (dm : String → String)
    (st : Nat → Except PErr (Option String)) (va vh vl : AttrValue) (o : Nat)
    (hdm : dm "" = "")
    (hva : isAddrA va = false) (hvh : isUdataA vh = false)
    (hso : st o = Except.error PErr.err ∨ st o = Except.ok none)
    (hvl : isStrRefA vl = false) :
    generate_func_desc dm st
        ⟨Except.ok (some va), Except.ok (some vh),
         Except.ok (some (AttrValue.DebugStrRef o))⟩
      = Except.ok (0, 0, FunctionType.Standard) ∧
    generate_func_desc dm st
        ⟨Except.ok (some va), Except.ok (some vh), Except.ok (some vl)⟩
      = Except.ok (0, 0, FunctionType.Standard) ∧
    generate_func_desc dm st ⟨Except.ok none, Except.ok none, Except.ok none⟩
      = Except.ok (0, 0, FunctionType.Standard) := by
  have hn : strLookup st o = "" := by
    rcases hso with h | h <;> simp [strLookup, h]
  refine ⟨?_, ?_, rfl⟩
  · cases va <;> cases vh <;>
      first
        | exact Bool.noConfusion hva
        | exact Bool.noConfusion hvh
        | (show Except.ok (0, 0,
              if strContains (dm (strLookup st o)) "tests::" = true then
                FunctionType.Test
              else if strContains (dm (strLookup st o)) "__test::main" = true then
                FunctionType.Generated
              else FunctionType.Standard)
              = Except.ok (0, 0, FunctionType.Standard)
           rw [hn, hdm]
           rfl)
  · cases va <;> cases vh <;> cases vl <;>
      first
        | exact Bool.noConfusion hva
        | exact Bool.noConfusion hvh
        | exact Bool.noConfusion hvl
        | rfl

/-- C10 witness: concrete wrong-encoding attributes all defaulting. -/
theorem attr_wrong_encoding_defaults_witness :
    id "" = "" ∧ isAddrA (AttrValue.Udata 1) = false ∧
      isUdataA (AttrValue.Addr 2) = false ∧
      stNone 0 = Except.ok none ∧ isStrRefA AttrValue.OtherForm = false ∧
      (generate_func_desc id stNone
          ⟨Except.ok (some (AttrValue.Udata 1)), Except.ok (some (AttrValue.Addr 2)),
           Except.ok (some (AttrValue.DebugStrRef 0))⟩
        = Except.ok (0, 0, FunctionType.Standard) ∧
       generate_func_desc id stNone
          ⟨Except.ok (some (AttrValue.Udata 1)), Except.ok (some (AttrValue.Addr 2)),
           Except.ok (some AttrValue.OtherForm)⟩
        = Except.ok (0, 0, FunctionType.Standard) ∧
       generate_func_desc id stNone
          ⟨Except.ok none, Except.ok none, Except.ok none⟩
        = Except.ok (0, 0, FunctionType.Standard)) :=
  ⟨rfl, rfl, rfl, rfl, rfl,
   attr_wrong_encoding_defaults id stNone (AttrValue.Udata 1) (AttrValue.Addr 2)
     AttrValue.OtherForm 0 rfl rfl rfl (Or.inr rfl) rfl⟩

/-- C8 counterexample: after the successful initial SIGTRAP stop the
tracer's event trace contains exactly one wait call and no exit-status
report — the tracer does not wait for the child to terminate and reports
neither its exit status nor any hit counts (no code in the tracer ever
mutates a record's `hits`). -/
theorem collect_coverage_no_exit_report_counterexample :
    (collect_coverage WaitRes.stoppedTrap true).map
        (fun evs => evs.filter isExitReport) = Except.ok [] ∧
      (collect_coverage WaitRes.stoppedTrap true).map
        (fun evs => evs.filter isWaitEvent) = Except.ok [TraceEvent.waited] :=
  ⟨rfl, rfl⟩

/-- C8 amended: on the expected initial stop the tracer issues a single
successful continue request and returns immediately: its whole event
trace is the one wait and the one continue, with no exit report among its
events and exactly one wait call. -/
theorem collect_coverage_single_continue_amended :
    collect_coverage WaitRes.stoppedTrap true =
        Except.ok [TraceEvent.waited, TraceEvent.contIssued] ∧
      [TraceEvent.waited, TraceEvent.contIssued].filter isExitReport = [] ∧
      ([TraceEvent.waited, TraceEvent.contIssued].filter isWaitEvent).length
        = 1 :=
  ⟨rfl, rfl, rfl⟩

/-- C9 counterexample: a failed continue request for the first child
panics the tracer (`expect`), so the run aborts and the second test
binary — which would have traced normally — is never traced. -/
theorem failed_continue_aborts_run_counterexample :
    runAll [⟨ForkRes.parent, WaitRes.stoppedTrap, false⟩,
            ⟨ForkRes.parent, WaitRes.stoppedTrap, true⟩] = ([], true) ∧
      runAll [⟨ForkRes.parent, WaitRes.stoppedTrap, true⟩] =
        ([[TraceEvent.waited, TraceEvent.contIssued]], false) :=
  ⟨rfl, rfl⟩

/-- C9 amended: a fork error, an unexpected wait result, or a wait error
abort only that child — the loop logs and continues with the remaining
binaries unchanged; a child-side trace or exec failure panics only the
forked child; but a failed continue request panics the whole tracer and
aborts the run. -/
theorem tracing_failure_scoping_amended (ts : List TestCase) (w : WaitRes)
    (c : Bool) :
    runAll (⟨ForkRes.forkErr, w, c⟩ :: ts) =
        ([TraceEvent.loggedForkErr] :: (runAll ts).1, (runAll ts).2) ∧
      runAll (⟨ForkRes.parent, WaitRes.otherStatus, c⟩ :: ts) =
        ([TraceEvent.waited, TraceEvent.loggedUnexpected] :: (runAll ts).1,
         (runAll ts).2) ∧
      runAll (⟨ForkRes.parent, WaitRes.errWait, c⟩ :: ts) =
        ([TraceEvent.waited, TraceEvent.loggedWaitErr] :: (runAll ts).1,
         (runAll ts).2) ∧
      runAll (⟨ForkRes.parent, WaitRes.stoppedTrap, false⟩ :: ts) = ([], true) ∧
      execute_test false c = Except.error PErr.err ∧
      execute_test true false = Except.error PErr.err :=
  ⟨rfl, rfl, rfl, rfl, rfl, rfl⟩

end Tarpaulin
